import Mathlib

/-!
Verification model of the concurrent candidate-screening orchestration engine
of this repository.

The definitions below are shallow embeddings of the TypeScript source:

* `processCandidatesConcurrently`, `executeTask` and the task/aggregation
  data model come from `services/agentOrchestrator.ts` (class
  `AgentOrchestrator`, lines 209-389).
* `processAllResumes`, `processSingleResume`, the bulk summary record and
  the score-descending sort come from the `BulkResumeProcessor` class in the
  same file (lines 492-716).
* `screenResume` (retry with exponential backoff) comes from
  `geminiService` (embedded in `types.ts`, lines 516-573).
* The resume segmenter `parseMultipleResumesFromText` (lines 91-152 of
  `agentOrchestrator.ts`) is embedded further below together with a small
  backtracking matcher for the concrete regular expressions it uses.

External effects are modelled explicitly: the LLM-backed screening service
is an oracle parameter (`AgentOrchestrator` agent runs; `screenResume`
calls), wall-clock times are fixed to 0 (the source stores elapsed
milliseconds which no verified property depends on), and JavaScript string
values are modelled as lists of characters (all inputs considered here are
ASCII, where JS UTF-16 length and character count agree).
-/

/-- The recommendation enumeration used across the repository
(`'STRONG_HIRE' | 'HIRE' | 'CONSIDER' | 'NO_HIRE'`). -/
inductive Recommendation
  | STRONG_HIRE
  | HIRE
  | CONSIDER
  | NO_HIRE
deriving DecidableEq, Repr

/-- The three agent kinds dispatched per candidate by
`processCandidatesConcurrently` (agentOrchestrator.ts lines 224-249; the
`Onboarder` and `ComplianceChecker` kinds exist in the source but no task of
those kinds is ever created by the batch entry points). -/
inductive AgentType
  | talentScout
  | skillsAnalyst
  | cultureFit
deriving DecidableEq, Repr

/-- One parsed candidate: the shape returned by the segmenter and consumed
by `processCandidatesConcurrently` (fields `resume`, `name`, `role`). -/
structure Candidate where
  resume : String
  name : String
  role : String
deriving DecidableEq

/-- A dispatched task, identified by candidate and agent kind.  The source
id string `candidate_TIMESTAMP_INDEX` is injective in INDEX within one run
(the timestamp is generated once, line 218), so the candidate id is
modelled by the candidate's index. -/
structure AgentTask where
  candidateId : Nat
  agentType : AgentType
deriving DecidableEq

/-- The three tasks created for one candidate (agentOrchestrator.ts lines
224-249, in source order: TalentScout, SkillsAnalyst, CultureFit). -/
def tasksFor (i : Nat) : List AgentTask :=
  [⟨i, .talentScout⟩, ⟨i, .skillsAnalyst⟩, ⟨i, .cultureFit⟩]

/-- `allTasks` — the flat task list built by the `candidates.forEach` loop
(lines 220-252): all candidates' tasks in candidate order. -/
def allTasks (n : Nat) : List AgentTask :=
  (List.range n).flatMap tasksFor

/-- Outcome of one agent run, as decided by the external screening service:
`none` models a rejected task promise, `some s` a fulfilled run whose
result object carries the numeric score `s` (the `match_score`,
`technical_score` or `culture_score` field read on line 288; a falsy score
field falls through the `||` chain to the literal `0`, which coincides with
`some 0`). -/
abbrev AgentOracle := Nat → AgentType → Option Nat

/-- The per-candidate group of fulfilled task results, in global task
order: the source pushes every fulfilled settled result into
`candidateResults.get(candidateId)` while walking `taskResults` in task
order (lines 261-276); a grouped lookup is therefore the order-preserving
restriction of the settled list to one candidate id. -/
def candidateResults (o : AgentOracle) (n i : Nat) : List (AgentType × Nat) :=
  (allTasks n).filterMap fun t =>
    if t.candidateId = i then (o t.candidateId t.agentType).map fun r => (t.agentType, r)
    else none

/-- The score list extracted on line 288 for one candidate. -/
def scoresOf (o : AgentOracle) (n i : Nat) : List Nat :=
  (candidateResults o n i).map fun p => p.2

/-- `Math.round(s / n)` for natural `s` and positive `n`: JavaScript rounds
half-integers up, so the value is the floor of `(2*s + n) / (2*n)`. -/
def jsRound (s n : Nat) : Nat :=
  (2 * s + n) / (2 * n)

/-- Line 291: the overall score is the rounded mean of the collected
scores, or `0` when no score was collected. -/
def overallScoreOf (scores : List Nat) : Nat :=
  if 0 < scores.length then jsRound scores.sum scores.length else 0

/-- Lines 293-298: the fixed recommendation thresholds. -/
def recommendationOf (s : Nat) : Recommendation :=
  if 85 ≤ s then .STRONG_HIRE
  else if 70 ≤ s then .HIRE
  else if 50 ≤ s then .CONSIDER
  else .NO_HIRE

/-- The `agentResults` sub-object of a compiled result (lines 305-309),
keeping each agent kind's raw score if that agent's task was fulfilled. -/
structure PerAgentResults where
  talentscout : Option Nat
  skillsanalyst : Option Nat
  culturefit : Option Nat
deriving DecidableEq

/-- `agentResults.find(r => r.agentType === a)?.result` (lines 306-308). -/
def findAgentResult (rs : List (AgentType × Nat)) (a : AgentType) : Option Nat :=
  (rs.find? fun p => p.1 == a).map fun p => p.2

/-- `ConcurrentProcessingResult` (lines 27-42) restricted to the fields the
source actually populates; `processingTime` is the literal `0` of line 310
and `conflictResolution` is never set. -/
structure CPResult where
  candidateId : Nat
  candidateName : String
  overallScore : Nat
  recommendation : Recommendation
  agentResults : PerAgentResults
  processingTime : Nat
  agentConsensus : Bool
deriving DecidableEq

/-- `processCandidatesConcurrently` (agentOrchestrator.ts lines 209-320):
build all tasks, settle them against the screening oracle, group fulfilled
results per candidate and compile one result per candidate, in candidate
order.  No sorting is applied to `finalResults`, `agentConsensus` is the
literal `true` of line 311. -/
def processCandidatesConcurrently (cands : List Candidate) (o : AgentOracle) :
    List CPResult :=
  cands.enum.map fun ic =>
    let rs := candidateResults o cands.length ic.1
    let scores := rs.map fun p => p.2
    let overallScore := overallScoreOf scores
    { candidateId := ic.1
      candidateName := ic.2.name
      overallScore := overallScore
      recommendation := recommendationOf overallScore
      agentResults :=
        { talentscout := findAgentResult rs .talentScout
          skillsanalyst := findAgentResult rs .skillsAnalyst
          culturefit := findAgentResult rs .cultureFit }
      processingTime := 0
      agentConsensus := true }

/-- Dispatch schedule of `processCandidatesConcurrently`: lines 255-256
start every task promise in one synchronous `map` — each `executeTask`
body sets `status = 'processing'` (line 325) before its first `await`, so
all `3 * N` tasks are in status `processing` simultaneously, as a single
dispatch window.  The function takes no concurrency parameter. -/
def cpcDispatchWindows (cands : List Candidate) : List (List AgentTask) :=
  [allTasks cands.length]

/-! ### The bulk resume processor (`BulkResumeProcessor`) -/

/-- `ScreeningResult` (types.ts lines 10-19), as produced by the external
screening service. -/
structure ScreeningResult where
  candidate_name : String
  role_applied_for : String
  match_score : Int
  summary : String
  strengths : List String
  weaknesses : List String
  recommendation : Recommendation
  reasoning : String
deriving DecidableEq

/-- `BulkResumeResult` (agentOrchestrator.ts lines 469-474);
`processingTime` is wall-clock and modelled as 0. -/
structure BulkResumeResult where
  candidateIndex : Nat
  candidateName : String
  screeningResult : ScreeningResult
  processingTime : Nat
deriving DecidableEq

/-- Outcome of one `screenResume` call as seen by `processSingleResume`
for a given resume index and text: `none` when every attempt failed (the
catch block returns `null`, lines 574-582), `some sr` on success. -/
abbrev BulkOracle := Nat → String → Option ScreeningResult

/-- `processSingleResume` (lines 557-583): wrap a successful screening into
a `BulkResumeResult`, or `null` on terminal failure. -/
def processSingleResume (o : BulkOracle) (resumeText : String) (index : Nat) :
    Option BulkResumeResult :=
  (o index resumeText).map fun sr =>
    { candidateIndex := index
      candidateName := sr.candidate_name
      screeningResult := sr
      processingTime := 0 }

/-- Fuel-driven batch slicing: one step of the
`for (let i = 0; i < resumes.length; i += concurrency)` loop takes the next
`concurrency` items.  The fuel argument bounds the number of loop
iterations; `xs.length` iterations always suffice because each step with
positive `c` consumes at least one element. -/
def chunkListGo (c : Nat) : Nat → List α → List (List α)
  | _, [] => []
  | 0, _ :: _ => []
  | fuel + 1, x :: rest =>
    (x :: rest).take c :: chunkListGo c fuel ((x :: rest).drop c)

/-- Batch slicing by index (line 597-598).  With `c = 0` the source loop
would never terminate; the model returns no batches in that (excluded)
case. -/
def chunkList (c : Nat) (xs : List α) : List (List α) :=
  if c = 0 then [] else chunkListGo c xs.length xs

/-- The batch windows of `processAllResumes`: the resumes (paired with
their index, as passed to `processSingleResume`) sliced into consecutive
windows of size `concurrency` (lines 597-603).  All tasks of one window are
dispatched together and awaited together (`Promise.allSettled`), and the
next window starts only after the previous one settled. -/
def bulkBatches (resumes : List String) (concurrency : Nat) :
    List (List (Nat × String)) :=
  chunkList concurrency resumes.enum

/-- The settled per-resume outcomes in processing order: the loop walks the
batches in order and, inside a batch, `Promise.allSettled` preserves the
dispatch order (lines 603-617).  Every promise fulfills (failures become
`null` inside `processSingleResume`), so each entry is an `Option`. -/
def bulkSettled (o : BulkOracle) (resumes : List String) (concurrency : Nat) :
    List (Option BulkResumeResult) :=
  (bulkBatches resumes concurrency).flatMap fun batch =>
    batch.map fun ir => processSingleResume o ir.2 ir.1

/-- Stable insertion of one element into a score-descending list: the
element moves past exactly those earlier elements whose score is strictly
smaller, which reproduces the ES2019 stable `Array.prototype.sort` with
comparator `(a, b) => b.match_score - a.match_score` (line 626). -/
def insDesc (x : BulkResumeResult) : List BulkResumeResult → List BulkResumeResult
  | [] => [x]
  | y :: ys =>
    if y.screeningResult.match_score < x.screeningResult.match_score then x :: y :: ys
    else y :: insDesc x ys

/-- Stable score-descending sort (line 626). -/
def sortByScoreDesc (xs : List BulkResumeResult) : List BulkResumeResult :=
  xs.foldl (fun acc x => insDesc x acc) []

/-- The sorted successful results of a bulk run (the local `results` array
after line 626). -/
def bulkSortedResults (o : BulkOracle) (resumes : List String) (concurrency : Nat) :
    List BulkResumeResult :=
  sortByScoreDesc ((bulkSettled o resumes concurrency).filterMap id)

/-- The `recommendations` sub-object of the bulk summary (lines 629-634). -/
structure RecommendationBuckets where
  strongHire : List BulkResumeResult
  hire : List BulkResumeResult
  consider : List BulkResumeResult
  noHire : List BulkResumeResult
deriving DecidableEq

/-- `BulkProcessingSummary` (lines 476-490).  `averageScore` is a JS float
division, modelled as the exact rational; `processingTime` is wall-clock
and modelled as 0. -/
structure BulkProcessingSummary where
  totalResumes : Nat
  processedResumes : Nat
  successfulScreenings : Nat
  failedScreenings : Nat
  topCandidates : List BulkResumeResult
  averageScore : ℚ
  processingTime : Nat
  recommendations : RecommendationBuckets
deriving DecidableEq

/-- `processAllResumes` (lines 588-655).  The counters accumulate over the
batches in loop order: `processed` is incremented once per settled entry,
`successful` once per fulfilled non-null entry, `failed` otherwise — which
is exactly a length / filtered-length of the settled list.  `topCount` is
`Math.min(10, Math.ceil(results.length * 0.1))`, modelled with exact
arithmetic as the ceiling of a tenth. -/
def processAllResumes (o : BulkOracle) (resumes : List String) (concurrency : Nat) :
    BulkProcessingSummary :=
  let settled := bulkSettled o resumes concurrency
  let results := settled.filterMap id
  let sorted := sortByScoreDesc results
  let topCount := min 10 ((results.length + 9) / 10)
  { totalResumes := resumes.length
    processedResumes := settled.length
    successfulScreenings := (settled.filter Option.isSome).length
    failedScreenings := (settled.filter fun r => !r.isSome).length
    topCandidates := sorted.take topCount
    averageScore :=
      if 0 < results.length then
        ((results.map fun r => (r.screeningResult.match_score : ℚ)).sum) / results.length
      else 0
    processingTime := 0
    recommendations :=
      { strongHire := sorted.filter fun r => r.screeningResult.recommendation == .STRONG_HIRE
        hire := sorted.filter fun r => r.screeningResult.recommendation == .HIRE
        consider := sorted.filter fun r => r.screeningResult.recommendation == .CONSIDER
        noHire := sorted.filter fun r => r.screeningResult.recommendation == .NO_HIRE } }

/-! ### The screening service client retry loop (`screenResume`) -/

/-- Per-attempt behaviour of the Gemini call inside `screenResume`: for a
given `retryCount` value, either a structured result or a thrown error
(`none`).  A response failing the validation check of lines 556-558 also
throws, hence is also `none`. -/
abbrev GeminiService := Nat → Option ScreeningResult

/-- The terminal error thrown after the retries are exhausted
(types.ts line 571). -/
def terminalFailureMsg : String :=
  "Failed to get analysis from Gemini API after multiple attempts."

/-- Observable behaviour of one `screenResume` invocation: how many
attempts (API calls) were made, the backoff delays (in milliseconds) slept
between consecutive attempts, and the final outcome. -/
structure RetryTrace where
  attempts : Nat
  delays : List Nat
  outcome : Except String ScreeningResult

/-- `screenResume` recursion (types.ts lines 516-573): attempt the call at
the current `retryCount`; on error, if `retryCount < 3`, sleep
`1000 * 2 ^ retryCount` milliseconds and recurse with `retryCount + 1`,
otherwise throw the terminal failure.  The fuel argument bounds the
recursion depth; `4` suffices from `retryCount = 0` because the guard
`retryCount < 3` admits at most three recursive calls. -/
def screenResumeGo (svc : GeminiService) : Nat → Nat → RetryTrace
  | 0, rc =>
    match svc rc with
    | some r => ⟨1, [], .ok r⟩
    | none => ⟨1, [], .error terminalFailureMsg⟩
  | fuel + 1, rc =>
    match svc rc with
    | some r => ⟨1, [], .ok r⟩
    | none =>
      if rc < 3 then
        let t := screenResumeGo svc fuel (rc + 1)
        ⟨t.attempts + 1, 1000 * 2 ^ rc :: t.delays, t.outcome⟩
      else ⟨1, [], .error terminalFailureMsg⟩

/-- One `screenResume(jobDescription, resumeText)` call: the exported entry
starts at `retryCount = 0` (default parameter, line 516); fuel `4` is
strictly more than the three recursive calls the `retryCount < 3` guard can
admit, so the fuel-exhausted base case is unreachable here. -/
def screenResume (svc : GeminiService) : RetryTrace :=
  screenResumeGo svc 4 0

/-! ### Task lifecycle inside `executeTask` -/

/-- Task status values (agentOrchestrator.ts line 20). -/
inductive TaskStatus
  | pending
  | processing
  | completed
  | failed
deriving DecidableEq, Repr

/-- The mutable fields of an `AgentTask` record that `executeTask`
touches: its status, its optional result (here: the numeric score payload)
and its optional error message. -/
structure TaskSnapshot where
  status : TaskStatus
  result : Option Nat
  error : Option String
deriving DecidableEq

/-- The sequence of states one task passes through during `executeTask`
(lines 322-389), given the outcome of its agent run: created `pending`
(line 231), set to `processing` on entry (line 325), then either
`completed` with `result` set (lines 362-363) or `failed` with `error` set
(lines 377-378).  No other code mutates a task. -/
def executeTaskTrace (outcome : Except String Nat) : List TaskSnapshot :=
  [ ⟨.pending, none, none⟩,
    ⟨.processing, none, none⟩,
    match outcome with
    | .ok r => ⟨.completed, some r, none⟩
    | .error e => ⟨.failed, none, some e⟩ ]

/-- Progress order of statuses: `pending` before `processing` before the
two settled statuses. -/
def statusRank : TaskStatus → Nat
  | .pending => 0
  | .processing => 1
  | .completed => 2
  | .failed => 2

/-! ### A matcher for the segmenter's regular expressions

`parseMultipleResumesFromText` drives its segmentation with a handful of
concrete JavaScript regular expressions.  The patterns use only character
classes, greedy class quantifiers, one capture group each, one
alternation, and the multiline start-of-line assertion, so they are
represented by the small syntax `Rx` below and matched by an explicit
backtracking matcher that reproduces the JS leftmost, first-preference
semantics: alternation prefers its left branch, quantifiers are greedy
(maximal iteration count tried first), and a scan returns the match at the
leftmost starting position. -/

/-- Regular-expression syntax for the segmenter's patterns. -/
inductive Rx where
  | eps : Rx
  | bol : Rx
  | cls : (Char → Bool) → Rx
  | seq : Rx → Rx → Rx
  | alt : Rx → Rx → Rx
  | star : Rx → Rx
  | grp : Rx → Rx

/-- Structural size of a pattern, used to bound the matcher's recursion
depth. -/
def rxSize : Rx → Nat
  | .eps => 1
  | .bol => 1
  | .cls _ => 1
  | .seq a b => rxSize a + rxSize b + 1
  | .alt a b => rxSize a + rxSize b + 1
  | .star a => rxSize a + 1
  | .grp a => rxSize a + 1

/-- All ways pattern `r` can match starting at position `i` of `s`, in JS
backtracking preference order; each entry is the end position together
with the capture-group span, if the group participated.  `star` drops
zero-width iterations (as the JS engine terminates such loops) and tries
the maximal iteration count first.  The fuel bounds the recursion depth;
every recursive call either shrinks the pattern or unfolds a `star` whose
body consumed at least one character, so
`(rxSize r + 2) * (s.length + 2)` fuel (see `mrxTop`) never runs out. -/
def mrx (s : List Char) : Nat → Rx → Nat → List (Nat × Option (Nat × Nat))
  | 0, _, _ => []
  | fuel + 1, r, i =>
    match r with
    | .eps => [(i, none)]
    | .bol => if i = 0 || s[i - 1]? == some '\n' then [(i, none)] else []
    | .cls p =>
      match s[i]? with
      | some c => if p c then [(i + 1, none)] else []
      | none => []
    | .seq a b =>
      (mrx s fuel a i).flatMap fun x =>
        (mrx s fuel b x.1).map fun y => (y.1, x.2.orElse fun _ => y.2)
    | .alt a b => mrx s fuel a i ++ mrx s fuel b i
    | .grp a => (mrx s fuel a i).map fun x => (x.1, some (i, x.1))
    | .star a =>
      ((mrx s fuel a i).flatMap fun x =>
        if i < x.1 then
          (mrx s fuel (.star a) x.1).map fun y => (y.1, x.2.orElse fun _ => y.2)
        else []) ++ [(i, none)]

/-- Matching with sufficient fuel. -/
def mrxTop (s : List Char) (r : Rx) (i : Nat) : List (Nat × Option (Nat × Nat)) :=
  mrx s ((rxSize r + 2) * (s.length + 2)) r i

/-- The first match of `r` at a position at least `i`: JS regex search
tries each starting position from left to right and keeps the first
(backtracking-preferred) match.  Fuel one larger than the string length
covers every candidate position. -/
def scanFrom (s : List Char) (r : Rx) : Nat → Nat → Option (Nat × Nat × Option (Nat × Nat))
  | 0, _ => none
  | fuel + 1, i =>
    if i ≤ s.length then
      match (mrxTop s r i).head? with
      | some x => some (i, x.1, x.2)
      | none => scanFrom s r fuel (i + 1)
    else none

/-- The non-overlapping match list of `String.prototype.matchAll`: after a
match the scan resumes at its end (advancing one position on an empty
match). -/
def allMatchesGo (s : List Char) (r : Rx) : Nat → Nat → List (Nat × Nat × Option (Nat × Nat))
  | 0, _ => []
  | fuel + 1, i =>
    match scanFrom s r (s.length + 1) i with
    | none => []
    | some m => m :: allMatchesGo s r fuel (if m.1 < m.2.1 then m.2.1 else m.1 + 1)

/-- All matches of `r` in `s` (the `Array.from(text.matchAll(r))` calls of
lines 105 and 118). -/
def allMatches (s : List Char) (r : Rx) : List (Nat × Nat × Option (Nat × Nat)) :=
  allMatchesGo s r (s.length + 1) 0

/-- The slice of `s` from position `i` (inclusive) to `j` (exclusive). -/
def sub (s : List Char) (i j : Nat) : List Char :=
  (s.drop i).take (j - i)

/-- `String.prototype.split` on a regex separator: the pieces between
consecutive matches, with each match's captured substring spliced into the
result (JS splices capture groups of the separator into the split
array). -/
def splitByRxGo (s : List Char) : Nat → List (Nat × Nat × Option (Nat × Nat)) → List (List Char)
  | prev, [] => [sub s prev s.length]
  | prev, m :: rest =>
    sub s prev m.1 ::
      ((match m.2.2 with
        | some c => [sub s c.1 c.2]
        | none => []) ++ splitByRxGo s m.2.1 rest)

/-- Split `s` by the separator pattern `r`. -/
def splitByRx (s : List Char) (r : Rx) : List (List Char) :=
  splitByRxGo s 0 (allMatches s r)

/-! Character classes of the segmenter's patterns. -/

/-- JS whitespace relevant here (the ASCII part of the regex class). -/
def isJsWs (c : Char) : Bool :=
  c == ' ' || c == '\t' || c == '\n' || c == '\r' || c == '\x0B' || c == '\x0C'

/-- The newline character. -/
def isNl (c : Char) : Bool := c == '\n'

/-- Any character other than a newline. -/
def notNl (c : Char) : Bool := !(c == '\n')

/-- An ASCII decimal digit. -/
def isDigitCh (c : Char) : Bool := '0' ≤ c && c ≤ '9'

/-- An ASCII letter: the class written in the source as a capital range
under the case-insensitive flag. -/
def isAsciiLetter (c : Char) : Bool :=
  ('A' ≤ c && c ≤ 'Z') || ('a' ≤ c && c ≤ 'z')

/-- An ASCII capital letter. -/
def isUpperCh (c : Char) : Bool := 'A' ≤ c && c ≤ 'Z'

/-- An ASCII small letter. -/
def isLowerCh (c : Char) : Bool := 'a' ≤ c && c ≤ 'z'

/-- The three dash characters of the delimiter patterns: hyphen, en dash,
em dash. -/
def isDashCh (c : Char) : Bool := c == '-' || c == '–' || c == '—'

/-- A hyphen or an equals sign. -/
def isDashEq (c : Char) : Bool := c == '-' || c == '='

/-- An asterisk. -/
def isAsterisk (c : Char) : Bool := c == '*'

/-! Pattern combinators and the concrete patterns. -/

/-- One-or-more repetition (greedy). -/
def rxPlus (r : Rx) : Rx := .seq r (.star r)

/-- Three-or-more repetition of a character class (greedy). -/
def rxRep3 (p : Char → Bool) : Rx :=
  .seq (.cls p) (.seq (.cls p) (.seq (.cls p) (.star (.cls p))))

/-- Four-or-more newlines: the large-gap separator of line 125. -/
def rxGap : Rx :=
  .seq (.cls isNl) (.seq (.cls isNl) (.seq (.cls isNl) (.seq (.cls isNl) (.star (.cls isNl)))))

/-- Sequencing of a pattern list. -/
def rxSeqs : List Rx → Rx
  | [] => .eps
  | [r] => r
  | r :: rs => .seq r (rxSeqs rs)

/-- A case-insensitive literal word. -/
def rxLitCi (w : List Char) : Rx :=
  rxSeqs (w.map fun c => .cls fun d => d.toLower == c.toLower)

/-- The leading alternative of each delimiter pattern: the multiline
start-of-line assertion or a literal newline, the assertion preferred. -/
def rxBolOrNl : Rx := .alt .bol (.cls isNl)

/-- Zero-or-more whitespace. -/
def rxWsStar : Rx := .star (.cls isJsWs)

/-- Delimiter patterns 1 and 2 of lines 94-95: a labelled marker line
such as a resume or candidate heading followed by a dash and a label, under
the case-insensitive and multiline flags. -/
def rxDelimLabeled (word : List Char) : Rx :=
  rxSeqs [rxBolOrNl, rxWsStar, rxLitCi word, rxWsStar,
          .alt (rxPlus (.cls isDigitCh)) (.cls isAsciiLetter), rxWsStar,
          .cls isDashCh, rxWsStar, .grp (rxPlus (.cls notNl))]

/-- Delimiter patterns 3 and 4 of lines 96-97: a label wrapped in runs of
three or more repeated symbols. -/
def rxDelimWrapped (p : Char → Bool) : Rx :=
  rxSeqs [rxBolOrNl, rxWsStar, rxRep3 p, rxWsStar, .grp (rxPlus (.cls notNl)),
          rxWsStar, rxRep3 p]

/-- A capitalized word: one capital letter then one or more small
letters. -/
def rxCapWord : Rx := .seq (.cls isUpperCh) (rxPlus (.cls isLowerCh))

/-- The standalone-full-name boundary pattern of line 117: a newline, then
a captured run of two or more capitalized words, then a newline. -/
def rxNameLine : Rx :=
  rxSeqs [.cls isNl, rxWsStar,
          .grp (rxSeqs [rxCapWord, .cls (fun c => c == ' '), rxCapWord,
                        .star (.seq (rxPlus (.cls isJsWs)) rxCapWord)]),
          rxWsStar, .cls isNl]

/-- The ordered delimiter chain of lines 93-98. -/
def segmenterDelims : List Rx :=
  [rxDelimLabeled "resume".data, rxDelimLabeled "candidate".data,
   rxDelimWrapped isDashEq, rxDelimWrapped isAsterisk]

/-- `String.prototype.trim` on the character-list model. -/
def jsTrim (s : List Char) : List Char :=
  ((s.dropWhile isJsWs).reverse.dropWhile isJsWs).reverse

/-- The minimum-section filter applied to every candidate split
(lines 108, 122, 125): keep sections whose trimmed length exceeds 100. -/
def trimLenFilter (xs : List (List Char)) : List (List Char) :=
  xs.filter fun sec => 100 < (jsTrim sec).length

/-- The `resumeSections` computation of `parseMultipleResumesFromText`
(agentOrchestrator.ts lines 100-127): the first delimiter yielding more
than one match wins and the text is split by it; otherwise the name-line
boundary is tried when it matches more than once; otherwise the large-gap
split is used; every branch filters its sections by the 100-character
trimmed-length threshold of lines 108, 122 and 125. -/
def segmenterSections (text : List Char) : List (List Char) :=
  match segmenterDelims.find? fun r => 1 < (allMatches text r).length with
  | some r => trimLenFilter (splitByRx text r)
  | none =>
    if 1 < (allMatches text rxNameLine).length then
      trimLenFilter (splitByRx text rxNameLine)
    else trimLenFilter (splitByRx text rxGap)

/-- `parseMultipleResumesFromText` (agentOrchestrator.ts lines 91-152),
restricted to the resume bodies it produces.  The name and role fields of
each returned object are regex heuristics that never influence the section
count or the bodies (the final filter of line 151 reads only
`resume.length`), so they are not modelled.  Lines 129-151: with at most
one surviving section the whole trimmed text becomes the single resume
body, otherwise the trimmed sections longer than 50 characters are
returned. -/
def parseMultipleResumesFromText (text : List Char) : List (List Char) :=
  let resumeSections := segmenterSections text
  if resumeSections.length ≤ 1 then [jsTrim text]
  else (resumeSections.map jsTrim).filter fun sec => 50 < sec.length

/-! ### The bulk segmenter (`parseResumesFromText`, lines 504-552)

The `BulkResumeProcessor` carries its own segmenter.  It tries five
literal string delimiters, then two numbered-marker regexes; the first
whose split yields more than one piece wins (even when the subsequent
length filter then discards every piece).  When no delimiter produced any
surviving resume, a blank-line split filtered by length and
resume-indicative keywords is used.  The result is trimmed and filtered to
bodies longer than 100 characters — which also makes an empty result
possible. -/

/-- Leftmost occurrence of the literal `pat` in `s` at a position of at
least `i` (the search inside `String.prototype.split` with a string
separator).  The fuel covers one step per candidate position. -/
def findLitFrom (pat s : List Char) : Nat → Nat → Option Nat
  | 0, _ => none
  | fuel + 1, i =>
    if i + pat.length ≤ s.length then
      if (s.drop i).take pat.length == pat then some i
      else findLitFrom pat s fuel (i + 1)
    else none

/-- `String.prototype.split` with a literal separator: pieces between
consecutive non-overlapping occurrences, searched left to right. -/
def splitByLitGo (pat s : List Char) : Nat → Nat → List (List Char)
  | 0, prev => [sub s prev s.length]
  | fuel + 1, prev =>
    match findLitFrom pat s (s.length + 1) prev with
    | none => [sub s prev s.length]
    | some j => sub s prev j :: splitByLitGo pat s fuel (j + pat.length)

/-- Split `s` by the literal separator `pat` (non-empty for every
delimiter used here, so each step advances and the fuel suffices). -/
def splitByLit (pat s : List Char) : List (List Char) :=
  splitByLitGo pat s (s.length + 1) 0

/-- The five literal delimiters of lines 507-511, in source order. -/
def bulkStringDelims : List (List Char) :=
  ["---RESUME---".data, "===RESUME===".data, "***RESUME***".data,
   "\n\n---\n\n".data, "\n\n===\n\n".data]

/-- The numbered resume marker of line 512: a case-insensitive literal
word, a space, one or more digits and a colon. -/
def rxResumeNum : Rx :=
  rxSeqs [rxLitCi "resume".data, .cls (fun c => c == ' '), rxPlus (.cls isDigitCh),
          .cls (fun c => c == ':')]

/-- The numbered candidate marker of line 513. -/
def rxCandidateNum : Rx :=
  rxSeqs [rxLitCi "candidate".data, .cls (fun c => c == ' '), rxPlus (.cls isDigitCh),
          .cls (fun c => c == ':')]

/-- The blank-line separator of line 537: a newline, optional whitespace,
a newline, optional whitespace, a newline (with the usual greedy
backtracking, since the whitespace class itself contains newlines). -/
def rxBlankGap : Rx :=
  rxSeqs [.cls isNl, rxWsStar, .cls isNl, rxWsStar, .cls isNl]

/-- The delimiter loop of lines 519-533: the split of the first delimiter
— five literals, then the two marker regexes, in order — whose split has
more than one piece; `none` when every delimiter leaves the text in one
piece.  The loop breaks as soon as a split succeeds, before any length
filtering. -/
def bulkSplitChoice (content : List Char) : Option (List (List Char)) :=
  match bulkStringDelims.find? fun pat => 1 < (splitByLit pat content).length with
  | some pat => some (splitByLit pat content)
  | none =>
    if 1 < (splitByRx content rxResumeNum).length then some (splitByRx content rxResumeNum)
    else if 1 < (splitByRx content rxCandidateNum).length then
      some (splitByRx content rxCandidateNum)
    else none

/-- Case-insensitive substring containment:
`section.toLowerCase().includes(kw)` for an ASCII lowercase keyword. -/
def containsCi (needle hay : List Char) : Bool :=
  (List.range (hay.length + 1)).any fun i =>
    ((hay.drop i).take needle.length).map (fun c => c.toLower) == needle

/-- The resume-indicative keywords of lines 541-545, in source order. -/
def resumeKeywords : List (List Char) :=
  ["experience".data, "education".data, "skills".data, "work".data, "resume".data]

/-- The `resumes` array right before the final clean-up (lines 516-548):
the winning delimiter's pieces filtered by trimmed length over 100; when
that leaves nothing (no delimiter matched, or everything was filtered
out), the blank-line sections whose trimmed length exceeds 200 and which
contain a resume keyword. -/
def bulkResumeSections (content : List Char) : List (List Char) :=
  let resumes :=
    match bulkSplitChoice content with
    | some pieces => pieces.filter fun r => 100 < (jsTrim r).length
    | none => []
  if resumes.length = 0 then
    (splitByRx content rxBlankGap).filter fun sec =>
      200 < (jsTrim sec).length && resumeKeywords.any fun kw => containsCi kw sec
  else resumes

/-- `parseResumesFromText` (agentOrchestrator.ts lines 504-552): the
sections, trimmed, keeping only bodies longer than 100 characters
(line 551).  Unlike `parseMultipleResumesFromText` there is no whole-text
fallback, so the result can be empty. -/
def parseResumesFromText (content : List Char) : List (List Char) :=
  ((bulkResumeSections content).map jsTrim).filter fun r => 100 < r.length

/-! ### Derived views and concrete instances

Derived definitions used to state properties of the embedding, and the
concrete inputs used as test vectors in the theorems below. -/

/-- The grouped fulfilled results of candidate `i`, written directly over
its own three tasks. -/
def directResults (o : AgentOracle) (i : Nat) : List (AgentType × Nat) :=
  (tasksFor i).filterMap fun t => (o i t.agentType).map fun r => (t.agentType, r)

/-- The successful scores of candidate `i`, one per fulfilled evaluator, in
evaluator order. -/
def directScores (o : AgentOracle) (i : Nat) : List Nat :=
  [o i .talentScout, o i .skillsAnalyst, o i .cultureFit].filterMap id

/-- The intended order among sorted bulk results: strictly larger score
first; on equal scores, smaller original index first. -/
def bulkOrder (a b : BulkResumeResult) : Prop :=
  b.screeningResult.match_score < a.screeningResult.match_score ∨
    (b.screeningResult.match_score = a.screeningResult.match_score ∧
      a.candidateIndex < b.candidateIndex)

/-- A concrete candidate. -/
def cexCandidateA : Candidate := ⟨"resume body", "Alice Example", "Developer"⟩

/-- Another concrete candidate. -/
def cexCandidateB : Candidate := ⟨"second resume body", "Bob Sample", "Developer"⟩

/-- A screening oracle whose evaluator scores for every candidate fall in
different recommendation bands (95 and 10) with the third evaluator
failing. -/
def splitScoresOracle : AgentOracle := fun _ a =>
  match a with
  | .talentScout => some 95
  | .skillsAnalyst => some 10
  | .cultureFit => none

/-- A screening oracle giving candidate 0 uniform scores of 50 and every
later candidate uniform scores of 90. -/
def ascendingOracle : AgentOracle := fun i _ => if i = 0 then some 50 else some 90

/-- The oracle of the spec's partial-failure scenario: two evaluators
succeed with 90 and 80, the third fails. -/
def scenarioOracle : AgentOracle := fun _ a =>
  match a with
  | .talentScout => some 90
  | .skillsAnalyst => some 80
  | .cultureFit => none

/-- A screening service for which every attempt throws. -/
def failingService : GeminiService := fun _ => none

/-- The single compiled result of running `splitScoresOracle` over one
candidate: mean of 95 and 10 rounds to 53, recommendation CONSIDER,
consensus flag true. -/
def cexResultSplit : CPResult :=
  ⟨0, "Alice Example", 53, .CONSIDER, ⟨some 95, some 10, none⟩, 0, true⟩

/-- The single compiled result of running `scenarioOracle` over one
candidate: mean of 90 and 80 rounds to 85, recommendation STRONG_HIRE. -/
def cexResultScenario : CPResult :=
  ⟨0, "Alice Example", 85, .STRONG_HIRE, ⟨some 90, some 80, none⟩, 0, true⟩

/-- A concrete successful screening result. -/
def srStrong : ScreeningResult :=
  ⟨"Jane Doe", "Backend Engineer", 90, "strong profile", [], [], .STRONG_HIRE,
   "matches the requirements"⟩

/-- A bulk oracle succeeding on the first resume and failing on the
rest. -/
def bulkOracleOne : BulkOracle := fun i _ => if i = 0 then some srStrong else none

/-! ### Supporting lemmas about batch slicing -/

theorem chunkListGo_mem_length_le {α : Type} (c : Nat) :
    ∀ (fuel : Nat) (xs : List α), ∀ w ∈ chunkListGo c fuel xs, w.length ≤ c := by
  intro fuel
  induction fuel with
  | zero => intro xs w hw; cases xs <;> simp [chunkListGo] at hw
  | succ n ih =>
    intro xs w hw
    cases xs with
    | nil => simp [chunkListGo] at hw
    | cons x rest =>
      simp only [chunkListGo, List.mem_cons] at hw
      rcases hw with rfl | hw
      · simp [List.length_take]
      · exact ih _ w hw

theorem chunkList_mem_length_le {α : Type} (c : Nat) (xs : List α) :
    ∀ w ∈ chunkList c xs, w.length ≤ c := by
  intro w hw
  unfold chunkList at hw
  by_cases hc : c = 0
  · simp [hc] at hw
  · rw [if_neg hc] at hw
    exact chunkListGo_mem_length_le c xs.length xs w hw

theorem chunkListGo_flatten {α : Type} (c : Nat) (hc : 0 < c) :
    ∀ (fuel : Nat) (xs : List α), xs.length ≤ fuel → (chunkListGo c fuel xs).flatten = xs := by
  intro fuel
  induction fuel with
  | zero =>
    intro xs h
    cases xs with
    | nil => rfl
    | cons x rest => simp at h
  | succ n ih =>
    intro xs h
    cases xs with
    | nil => rfl
    | cons x rest =>
      simp only [chunkListGo, List.flatten_cons]
      rw [ih ((x :: rest).drop c) (by simp at h ⊢; omega)]
      exact List.take_append_drop c (x :: rest)

theorem chunkList_flatten {α : Type} (c : Nat) (hc : 0 < c) (xs : List α) :
    (chunkList c xs).flatten = xs := by
  unfold chunkList
  rw [if_neg (Nat.pos_iff_ne_zero.mp hc)]
  exact chunkListGo_flatten c hc xs.length xs le_rfl

theorem filterMap_id_length {α : Type} (l : List (Option α)) :
    (l.filterMap id).length = (l.filter Option.isSome).length := by
  induction l with
  | nil => rfl
  | cons x xs ih => cases x <;> simp [ih]

/-! ### Supporting lemmas about the orchestrator's task grouping -/

theorem allTasks_length (n : Nat) : (allTasks n).length = 3 * n := by
  induction n with
  | zero => rfl
  | succ n ih =>
    unfold allTasks at ih ⊢
    rw [List.range_succ, List.flatMap_append, List.length_append, ih]
    simp [tasksFor]
    omega

theorem candidateResults_eq (o : AgentOracle) (n i : Nat) :
    candidateResults o n i = if i < n then directResults o i else [] := by
  induction n with
  | zero => simp [candidateResults, allTasks]
  | succ n ih =>
    unfold candidateResults at ih ⊢
    rw [allTasks, List.range_succ, List.flatMap_append, List.filterMap_append]
    rw [show (List.flatMap [n] tasksFor) = tasksFor n by simp]
    by_cases hni : n = i
    · subst hni
      rw [allTasks] at ih
      rw [ih, if_neg (by omega), if_pos (by omega)]
      simp [tasksFor, directResults, List.filterMap_cons]
    · rw [allTasks] at ih
      rw [ih]
      have h2 : ((tasksFor n).filterMap fun t =>
          if t.candidateId = i then (o t.candidateId t.agentType).map fun r => (t.agentType, r)
          else none) = [] := by
        simp [tasksFor, hni]
      rw [h2, List.append_nil]
      by_cases hi : i < n
      · rw [if_pos hi, if_pos (by omega)]
      · rw [if_neg hi, if_neg (by omega)]

theorem scoresOf_eq (o : AgentOracle) (n i : Nat) (h : i < n) :
    scoresOf o n i = directScores o i := by
  unfold scoresOf
  rw [candidateResults_eq, if_pos h]
  unfold directResults directScores tasksFor
  rcases h1 : o i .talentScout with _ | a <;> rcases h2 : o i .skillsAnalyst with _ | b <;>
    rcases h3 : o i .cultureFit with _ | c <;>
      simp [List.filterMap_cons, h1, h2, h3]

theorem scoresOf_eq_nil (o : AgentOracle) (n i : Nat) (h : ¬ i < n) :
    scoresOf o n i = [] := by
  unfold scoresOf
  rw [candidateResults_eq, if_neg h]
  rfl

theorem processCandidatesConcurrently_length (cands : List Candidate) (o : AgentOracle) :
    (processCandidatesConcurrently cands o).length = cands.length := by
  simp [processCandidatesConcurrently]

/-- Decomposition of membership in the orchestrator's output list. -/
theorem mem_processCandidatesConcurrently {cands : List Candidate} {o : AgentOracle}
    {r : CPResult} (hr : r ∈ processCandidatesConcurrently cands o) :
    ∃ i c, cands[i]? = some c ∧ i < cands.length ∧
      r.candidateId = i ∧
      r.overallScore = overallScoreOf (scoresOf o cands.length i) ∧
      r.recommendation = recommendationOf (overallScoreOf (scoresOf o cands.length i)) ∧
      r.agentConsensus = true := by
  obtain ⟨ic, hic, rfl⟩ := List.mem_map.mp hr
  obtain ⟨i, c⟩ := ic
  have hget : cands[i]? = some c := List.mk_mem_enum_iff_getElem?.mp hic
  exact ⟨i, c, hget, (List.getElem?_eq_some.mp hget).1, rfl, rfl, rfl, rfl⟩

/-! ### Supporting lemmas about the bulk processor -/

theorem bulkSettled_eq (o : BulkOracle) (resumes : List String) (c : Nat) (hc : 0 < c) :
    bulkSettled o resumes c = resumes.enum.map fun ir => processSingleResume o ir.2 ir.1 := by
  unfold bulkSettled bulkBatches
  rw [List.flatMap_def, ← List.map_flatten, chunkList_flatten c hc]

theorem mem_insDesc {a x : BulkResumeResult} {l : List BulkResumeResult} :
    a ∈ insDesc x l ↔ a = x ∨ a ∈ l := by
  induction l with
  | nil => simp [insDesc]
  | cons y ys ih =>
    unfold insDesc
    by_cases h : y.screeningResult.match_score < x.screeningResult.match_score
    · simp [h]
    · simp only [if_neg h, List.mem_cons, ih]
      tauto

theorem insDesc_length (x : BulkResumeResult) (l : List BulkResumeResult) :
    (insDesc x l).length = l.length + 1 := by
  induction l with
  | nil => rfl
  | cons y ys ih =>
    unfold insDesc
    by_cases h : y.screeningResult.match_score < x.screeningResult.match_score
    · simp [h]
    · simp [h, ih]

theorem insDesc_pairwise {x : BulkResumeResult} {l : List BulkResumeResult}
    (hl : l.Pairwise bulkOrder)
    (hidx : ∀ y ∈ l, y.candidateIndex < x.candidateIndex) :
    (insDesc x l).Pairwise bulkOrder := by
  induction l with
  | nil => simp [insDesc, List.pairwise_cons]
  | cons y ys ih =>
    rw [List.pairwise_cons] at hl
    unfold insDesc
    by_cases h : y.screeningResult.match_score < x.screeningResult.match_score
    · rw [if_pos h, List.pairwise_cons]
      refine ⟨?_, List.Pairwise.cons hl.1 hl.2⟩
      intro z hz
      rcases List.mem_cons.mp hz with rfl | hz
      · exact Or.inl h
      · rcases hl.1 z hz with hlt | ⟨heq, _⟩
        · exact Or.inl (by omega)
        · exact Or.inl (by omega)
    · rw [if_neg h, List.pairwise_cons]
      constructor
      · intro z hz
        rcases mem_insDesc.mp hz with rfl | hz
        · by_cases hxy : z.screeningResult.match_score < y.screeningResult.match_score
          · exact Or.inl hxy
          · exact Or.inr ⟨by omega, hidx y (List.mem_cons_self y ys)⟩
        · exact hl.1 z hz
      · exact ih hl.2 fun z hz => hidx z (List.mem_cons_of_mem y hz)

theorem foldl_insDesc_pairwise :
    ∀ (l : List BulkResumeResult) (acc : List BulkResumeResult),
      acc.Pairwise bulkOrder →
      l.Pairwise (fun a b => a.candidateIndex < b.candidateIndex) →
      (∀ y ∈ acc, ∀ x ∈ l, y.candidateIndex < x.candidateIndex) →
      (l.foldl (fun acc x => insDesc x acc) acc).Pairwise bulkOrder := by
  intro l
  induction l with
  | nil => intro acc hacc _ _; exact hacc
  | cons x xs ih =>
    intro acc hacc hl hcross
    rw [List.pairwise_cons] at hl
    rw [List.foldl_cons]
    refine ih (insDesc x acc) ?_ hl.2 ?_
    · exact insDesc_pairwise hacc fun y hy => hcross y hy x (List.mem_cons_self x xs)
    · intro y hy z hz
      rcases mem_insDesc.mp hy with rfl | hy
      · exact hl.1 z hz
      · exact hcross y hy z (List.mem_cons_of_mem x hz)

theorem foldl_insDesc_length :
    ∀ (l : List BulkResumeResult) (acc : List BulkResumeResult),
      (l.foldl (fun acc x => insDesc x acc) acc).length = acc.length + l.length := by
  intro l
  induction l with
  | nil => intro acc; rfl
  | cons x xs ih =>
    intro acc
    rw [List.foldl_cons, ih, insDesc_length]
    simp
    omega

theorem sortByScoreDesc_length (l : List BulkResumeResult) :
    (sortByScoreDesc l).length = l.length := by
  unfold sortByScoreDesc
  rw [foldl_insDesc_length]
  simp

theorem le_fst_of_mem_enumFrom {α : Type} :
    ∀ (l : List α) (k : Nat) (p : Nat × α), p ∈ List.enumFrom k l → k ≤ p.1 := by
  intro l
  induction l with
  | nil => intro k p hp; simp at hp
  | cons x xs ih =>
    intro k p hp
    rcases List.mem_cons.mp hp with rfl | hp
    · exact le_rfl
    · have := ih (k + 1) p hp
      omega

theorem enumFrom_pairwise_fst_lt {α : Type} :
    ∀ (l : List α) (k : Nat), (List.enumFrom k l).Pairwise (fun a b => a.1 < b.1) := by
  intro l
  induction l with
  | nil => intro k; simp
  | cons x xs ih =>
    intro k
    refine List.Pairwise.cons ?_ (ih (k + 1))
    intro p hp
    have := le_fst_of_mem_enumFrom xs (k + 1) p hp
    omega

theorem bulkResults_pairwise_idx (o : BulkOracle) (resumes : List String) (c : Nat) :
    ((bulkSettled o resumes c).filterMap id).Pairwise
      (fun a b => a.candidateIndex < b.candidateIndex) := by
  by_cases hc : 0 < c
  · rw [bulkSettled_eq o resumes c hc, List.filterMap_map]
    refine List.Pairwise.filterMap _ ?_ (enumFrom_pairwise_fst_lt resumes 0)
    intro a b hab x hx y hy
    simp only [Function.comp_apply, processSingleResume] at hx hy
    obtain ⟨sa, _, rfl⟩ := Option.map_eq_some'.mp hx
    obtain ⟨sb, _, rfl⟩ := Option.map_eq_some'.mp hy
    exact hab
  · have : c = 0 := by omega
    subst this
    simp [bulkSettled, bulkBatches, chunkList]

theorem four_filter_partition (l : List BulkResumeResult) :
    (l.filter fun r => r.screeningResult.recommendation == Recommendation.STRONG_HIRE).length +
      (l.filter fun r => r.screeningResult.recommendation == Recommendation.HIRE).length +
      (l.filter fun r => r.screeningResult.recommendation == Recommendation.CONSIDER).length +
      (l.filter fun r => r.screeningResult.recommendation == Recommendation.NO_HIRE).length =
      l.length := by
  induction l with
  | nil => rfl
  | cons x xs ih =>
    cases hx : x.screeningResult.recommendation <;>
      simp [List.filter_cons, hx] <;> omega

/-! ### Supporting lemmas about rounding, thresholds and the segmenter -/

theorem jsRound_round_half_up (s n : Nat) (hn : 0 < n) :
    ((jsRound s n : ℚ) - 1 / 2 ≤ (s : ℚ) / n) ∧ ((s : ℚ) / n < (jsRound s n : ℚ) + 1 / 2) := by
  have hq : (0 : ℚ) < n := by exact_mod_cast hn
  unfold jsRound
  have hdm := Nat.div_add_mod (2 * s + n) (2 * n)
  have hmod : (2 * s + n) % (2 * n) < 2 * n := Nat.mod_lt _ (by omega)
  set k := (2 * s + n) / (2 * n) with hk
  have h1 : 2 * n * k ≤ 2 * s + n := by omega
  have h2 : 2 * s + n < 2 * n * k + 2 * n := by omega
  constructor
  · rw [le_div_iff₀ hq]
    have h1q : 2 * (n : ℚ) * k ≤ 2 * s + n := by exact_mod_cast h1
    nlinarith
  · rw [div_lt_iff₀ hq]
    have h2q : 2 * (s : ℚ) + n < 2 * n * k + 2 * n := by exact_mod_cast h2
    nlinarith

theorem overallScoreOf_spec (scores : List Nat) (h : scores ≠ []) :
    ((overallScoreOf scores : ℚ) - 1 / 2 ≤ (scores.sum : ℚ) / scores.length) ∧
      ((scores.sum : ℚ) / scores.length < (overallScoreOf scores : ℚ) + 1 / 2) := by
  have hl : 0 < scores.length := List.length_pos.mpr h
  unfold overallScoreOf
  rw [if_pos hl]
  exact jsRound_round_half_up _ _ hl

theorem recommendationOf_iff (s : Nat) :
    (85 ≤ s ↔ recommendationOf s = .STRONG_HIRE) ∧
      (70 ≤ s ∧ s < 85 ↔ recommendationOf s = .HIRE) ∧
      (50 ≤ s ∧ s < 70 ↔ recommendationOf s = .CONSIDER) ∧
      (s < 50 ↔ recommendationOf s = .NO_HIRE) := by
  unfold recommendationOf
  by_cases h85 : 85 ≤ s <;> by_cases h70 : 70 ≤ s <;> by_cases h50 : 50 ≤ s <;>
    simp [h85, h70, h50] <;> omega

theorem segmenterSections_trim_gt (text : List Char) :
    ∀ s ∈ segmenterSections text, 100 < (jsTrim s).length := by
  intro s hs
  unfold segmenterSections at hs
  rcases hfind : segmenterDelims.find? fun r => 1 < (allMatches text r).length with _ | r
  · rw [hfind] at hs
    by_cases hn : 1 < (allMatches text rxNameLine).length
    · rw [if_pos hn] at hs
      have := (List.mem_filter.mp hs).2
      simpa using this
    · rw [if_neg hn] at hs
      have := (List.mem_filter.mp hs).2
      simpa using this
  · rw [hfind] at hs
    have := (List.mem_filter.mp hs).2
    simpa using this

theorem parseResumesFromText_gt (content : List Char) :
    ∀ b ∈ parseResumesFromText content, 100 < b.length := by
  intro b hb
  have hb' : b ∈ ((bulkResumeSections content).map jsTrim).filter
      (fun r => 100 < r.length) := hb
  have := (List.mem_filter.mp hb').2
  simpa using this

/-! ### The claims -/

/-- C4: for every batch run over any list of work units, the returned list
of aggregated results has exactly the same length as the input work-unit
list — one aggregated result per work unit, regardless of how many of that
candidate's evaluator tasks failed (the oracle is arbitrary, including the
all-failing one). -/
theorem C4_one_result_per_workunit (cands : List Candidate) (o : AgentOracle) :
    (processCandidatesConcurrently cands o).length = cands.length :=
  processCandidatesConcurrently_length cands o

/-- C6: every compiled result's recommendation is the fixed threshold
function of its overall score (at least 85 STRONG_HIRE, at least 70 HIRE,
at least 50 CONSIDER, otherwise NO_HIRE), and a candidate with zero
successful evaluator tasks gets overall score 0 and NO_HIRE. -/
theorem C6_recommendation_thresholds (cands : List Candidate) (o : AgentOracle) :
    ∀ r ∈ processCandidatesConcurrently cands o,
      ((85 ≤ r.overallScore ↔ r.recommendation = .STRONG_HIRE) ∧
        (70 ≤ r.overallScore ∧ r.overallScore < 85 ↔ r.recommendation = .HIRE) ∧
        (50 ≤ r.overallScore ∧ r.overallScore < 70 ↔ r.recommendation = .CONSIDER) ∧
        (r.overallScore < 50 ↔ r.recommendation = .NO_HIRE)) ∧
      (directScores o r.candidateId = [] →
        r.overallScore = 0 ∧ r.recommendation = .NO_HIRE) := by
  intro r hr
  obtain ⟨i, c, hget, hlt, hid, hscore, hrec, _⟩ := mem_processCandidatesConcurrently hr
  constructor
  · rw [hscore, hrec]
    exact recommendationOf_iff _
  · intro hnil
    rw [hid] at hnil
    have hs : scoresOf o cands.length i = [] := by
      rw [scoresOf_eq o cands.length i hlt]
      exact hnil
    rw [hscore, hrec, hs]
    exact ⟨rfl, rfl⟩

/-- Witness for C6: in the concrete run of `splitScoresOracle`, the result
with overall score 53 satisfies the threshold characterization (it is
CONSIDER). -/
theorem C6_recommendation_thresholds_witness :
    ((85 ≤ cexResultSplit.overallScore ↔ cexResultSplit.recommendation = .STRONG_HIRE) ∧
      (70 ≤ cexResultSplit.overallScore ∧ cexResultSplit.overallScore < 85 ↔
        cexResultSplit.recommendation = .HIRE) ∧
      (50 ≤ cexResultSplit.overallScore ∧ cexResultSplit.overallScore < 70 ↔
        cexResultSplit.recommendation = .CONSIDER) ∧
      (cexResultSplit.overallScore < 50 ↔ cexResultSplit.recommendation = .NO_HIRE)) ∧
    (directScores splitScoresOracle cexResultSplit.candidateId = [] →
      cexResultSplit.overallScore = 0 ∧ cexResultSplit.recommendation = .NO_HIRE) :=
  C6_recommendation_thresholds [cexCandidateA] splitScoresOracle cexResultSplit (by decide)

/-- C5: every compiled result's overall score is the half-up rounding of
the arithmetic mean of the successful evaluator scores collected for that
candidate, and is 0 when no score was collected; failed tasks contribute
nothing to the mean. -/
theorem C5_overall_score_rounded_mean (cands : List Candidate) (o : AgentOracle) :
    ∀ r ∈ processCandidatesConcurrently cands o,
      (directScores o r.candidateId = [] → r.overallScore = 0) ∧
      (directScores o r.candidateId ≠ [] →
        ((r.overallScore : ℚ) - 1 / 2 ≤
            ((directScores o r.candidateId).sum : ℚ) /
              (directScores o r.candidateId).length ∧
          ((directScores o r.candidateId).sum : ℚ) /
              (directScores o r.candidateId).length <
            (r.overallScore : ℚ) + 1 / 2)) := by
  intro r hr
  obtain ⟨i, c, hget, hlt, hid, hscore, hrec, _⟩ := mem_processCandidatesConcurrently hr
  rw [hid, hscore, scoresOf_eq o cands.length i hlt]
  constructor
  · intro hnil
    rw [hnil]
    rfl
  · intro hne
    exact overallScoreOf_spec _ hne

/-- Witness for C5: the spec's partial-failure scenario — two evaluators
succeed with 90 and 80, one fails — yields overall score 85, the half-up
rounding of 170/2. -/
theorem C5_overall_score_rounded_mean_witness :
    (cexResultScenario.overallScore : ℚ) - 1 / 2 ≤
        ((directScores scenarioOracle cexResultScenario.candidateId).sum : ℚ) /
          (directScores scenarioOracle cexResultScenario.candidateId).length ∧
      ((directScores scenarioOracle cexResultScenario.candidateId).sum : ℚ) /
          (directScores scenarioOracle cexResultScenario.candidateId).length <
        (cexResultScenario.overallScore : ℚ) + 1 / 2 :=
  (C5_overall_score_rounded_mean [cexCandidateA] scenarioOracle cexResultScenario
    (by decide)).2 (by decide)

/-- C3 counterexample: the claim that the consensus flag is true exactly
when all contributing scores fall within one recommendation band is false —
here the two successful scores 95 and 10 lie in different bands
(STRONG_HIRE versus NO_HIRE), yet the result's consensus flag is true. -/
theorem C3_consensus_counterexample :
    ¬ (∀ r ∈ processCandidatesConcurrently [cexCandidateA] splitScoresOracle,
        (r.agentConsensus = true ↔
          ∀ a ∈ scoresOf splitScoresOracle 1 r.candidateId,
            ∀ b ∈ scoresOf splitScoresOracle 1 r.candidateId,
              recommendationOf a = recommendationOf b)) := by decide

/-- C3 amended: the consensus flag is the constant true for every result,
independent of the evaluators' scores (line 311). -/
theorem C3_consensus_constant_true (cands : List Candidate) (o : AgentOracle) :
    ∀ r ∈ processCandidatesConcurrently cands o, r.agentConsensus = true := by
  intro r hr
  obtain ⟨_, _, _, _, _, _, _, hcons⟩ := mem_processCandidatesConcurrently hr
  exact hcons

/-- Witness for the amended C3 at a concrete run. -/
theorem C3_consensus_constant_true_witness : cexResultSplit.agentConsensus = true :=
  C3_consensus_constant_true [cexCandidateA] splitScoresOracle cexResultSplit (by decide)

/-- C1 counterexample: the claim that no more than the configured ceiling
of tasks is ever simultaneously processing fails for
`processCandidatesConcurrently` — with just two candidates its single
dispatch window already holds six simultaneously processing tasks,
exceeding the bulk path's configured default ceiling of three. -/
theorem C1_ceiling_counterexample :
    ¬ (∀ w ∈ cpcDispatchWindows [cexCandidateA, cexCandidateB], w.length ≤ 3) := by
  decide

/-- C1 amended: `processAllResumes` respects its `concurrency` parameter —
every batch window carries at most `concurrency` tasks — while
`processCandidatesConcurrently` has no ceiling at all: its single dispatch
window carries all `3 * N` tasks of the batch. -/
theorem C1_amended_windows (resumes : List String) (c : Nat) (cands : List Candidate) :
    (∀ w ∈ bulkBatches resumes c, w.length ≤ c) ∧
      (∀ w ∈ cpcDispatchWindows cands, w.length = 3 * cands.length) := by
  constructor
  · intro w hw
    exact chunkList_mem_length_le c resumes.enum w hw
  · intro w hw
    rw [cpcDispatchWindows, List.mem_singleton] at hw
    subst hw
    exact allTasks_length cands.length

/-- Witness for the amended C1: a three-resume bulk run with ceiling two
has a first window of two tasks, and a two-candidate orchestrator run has
one window of six tasks. -/
theorem C1_amended_windows_witness :
    ([((0 : Nat), "alpha"), (1, "beta")] : List (Nat × String)).length ≤ 2 ∧
      (allTasks 2).length = 3 * 2 :=
  ⟨(C1_amended_windows ["alpha", "beta", "gamma"] 2 [cexCandidateA, cexCandidateB]).1
      [((0 : Nat), "alpha"), (1, "beta")] (by decide),
   (C1_amended_windows ["alpha", "beta", "gamma"] 2 [cexCandidateA, cexCandidateB]).2
      (allTasks 2) (by decide)⟩

/-- C2 counterexample: the claim that the final output list is sorted by
overall score descending fails — `processCandidatesConcurrently` returns
results in input order, and in this run the first result scores 50 and the
second 90. -/
theorem C2_not_sorted_counterexample :
    ¬ List.Pairwise (fun a b : CPResult => b.overallScore ≤ a.overallScore)
        (processCandidatesConcurrently [cexCandidateA, cexCandidateB] ascendingOracle) := by
  decide

/-- C2 amended: `processCandidatesConcurrently` returns one result per
candidate in input order with no sorting, while the bulk path sorts its
successful results by match score descending with equal scores kept in
original input order; there is no recommendation-rank tie-break. -/
theorem C2_amended_ordering :
    (∀ (o : BulkOracle) (resumes : List String) (c : Nat),
        (bulkSortedResults o resumes c).Pairwise bulkOrder) ∧
      (∀ (cands : List Candidate) (o : AgentOracle),
        (processCandidatesConcurrently cands o).map (fun r => r.candidateId) =
          List.range cands.length) := by
  constructor
  · intro o resumes c
    unfold bulkSortedResults sortByScoreDesc
    exact foldl_insDesc_pairwise _ [] (by simp) (bulkResults_pairwise_idx o resumes c)
      (by simp)
  · intro cands o
    unfold processCandidatesConcurrently
    rw [List.map_map]
    exact List.enum_map_fst cands

/-- C7 counterexample: against an always-failing service the client makes
four attempts in total (one initial call plus three retries) before the
terminal failure — not at most three as claimed. -/
theorem C7_attempts_counterexample :
    (screenResume failingService).attempts = 4 ∧
      ¬ ((screenResume failingService).attempts ≤ 3) := by
  exact ⟨rfl, by decide⟩

/-- C7 amended: `screenResume` makes at most four attempts (one initial
call plus at most three retries); the backoff delays slept between
consecutive attempts double from one second (1000, 2000, 4000
milliseconds, one per retry actually taken); and when every attempt fails
it makes exactly four attempts and surfaces the terminal failure. -/
theorem C7_retry_backoff (svc : GeminiService) :
    (screenResume svc).attempts ≤ 4 ∧
      (screenResume svc).delays =
        (List.range ((screenResume svc).attempts - 1)).map (fun k => 1000 * 2 ^ k) ∧
      ((∀ k, k < 4 → svc k = none) →
        (screenResume svc).attempts = 4 ∧
          (screenResume svc).outcome = .error terminalFailureMsg) := by
  rcases h0 : svc 0 with _ | r0
  · rcases h1 : svc 1 with _ | r1
    · rcases h2 : svc 2 with _ | r2
      · rcases h3 : svc 3 with _ | r3
        · refine ⟨?_, ?_, fun _ => ⟨?_, ?_⟩⟩ <;>
            simp [screenResume, screenResumeGo, h0, h1, h2, h3, List.range_succ]
        · refine ⟨?_, ?_, ?_⟩
          · simp [screenResume, screenResumeGo, h0, h1, h2, h3]
          · simp [screenResume, screenResumeGo, h0, h1, h2, h3, List.range_succ]
          · intro hall
            have := hall 3 (by omega)
            rw [h3] at this
            simp at this
      · refine ⟨?_, ?_, ?_⟩
        · simp [screenResume, screenResumeGo, h0, h1, h2]
        · simp [screenResume, screenResumeGo, h0, h1, h2, List.range_succ]
        · intro hall
          have := hall 2 (by omega)
          rw [h2] at this
          simp at this
    · refine ⟨?_, ?_, ?_⟩
      · simp [screenResume, screenResumeGo, h0, h1]
      · simp [screenResume, screenResumeGo, h0, h1, List.range_succ]
      · intro hall
        have := hall 1 (by omega)
        rw [h1] at this
        simp at this
  · refine ⟨?_, ?_, ?_⟩
    · simp [screenResume, screenResumeGo, h0]
    · simp [screenResume, screenResumeGo, h0]
    · intro hall
      have := hall 0 (by omega)
      rw [h0] at this
      simp at this

/-- Witness for the amended C7: against the always-failing service the
client makes exactly four attempts and surfaces the terminal failure. -/
theorem C7_retry_backoff_witness :
    (screenResume failingService).attempts = 4 ∧
      (screenResume failingService).outcome = .error terminalFailureMsg :=
  (C7_retry_backoff failingService).2.2 (fun _ _ => rfl)

/-- C8 counterexample: both segmenters violate the claim at the same
non-empty three-character input — `parseMultipleResumesFromText` returns a
single work unit whose three-character body does not exceed the
100-character threshold, and `parseResumesFromText` returns no work unit
at all (an empty list), against the never-empty conjunct. -/
theorem C8_threshold_counterexample :
    (¬ ∀ b ∈ parseMultipleResumesFromText "abc".data, 100 < b.length) ∧
      parseResumesFromText "abc".data = [] :=
  ⟨by decide, by decide⟩

/-- C8 amended: for every input `parseMultipleResumesFromText` returns at
least one work unit — either the single fallback unit carrying the whole
trimmed input (whatever its length) or the split sections, each of which
exceeds the 100-character threshold — while `parseResumesFromText` may
return an empty list, but every resume body it does return exceeds the
100-character threshold. -/
theorem C8_segmenter_nonempty (text : List Char) :
    (parseMultipleResumesFromText text ≠ [] ∧
      (parseMultipleResumesFromText text = [jsTrim text] ∨
        ∀ b ∈ parseMultipleResumesFromText text, 100 < b.length)) ∧
      (∀ b ∈ parseResumesFromText text, 100 < b.length) := by
  refine ⟨?_, parseResumesFromText_gt text⟩
  have hdef : parseMultipleResumesFromText text =
      if (segmenterSections text).length ≤ 1 then [jsTrim text]
      else ((segmenterSections text).map jsTrim).filter fun sec => 50 < sec.length := rfl
  rw [hdef]
  by_cases hle : (segmenterSections text).length ≤ 1
  · rw [if_pos hle]
    exact ⟨by simp, Or.inl rfl⟩
  · rw [if_neg hle]
    have hall : ∀ b ∈ (segmenterSections text).map jsTrim, 100 < b.length := by
      intro b hb
      obtain ⟨s, hs, rfl⟩ := List.mem_map.mp hb
      exact segmenterSections_trim_gt text s hs
    have hfeq : (((segmenterSections text).map jsTrim).filter fun sec => 50 < sec.length) =
        (segmenterSections text).map jsTrim := by
      apply List.filter_eq_self.mpr
      intro a ha
      have h100 := hall a ha
      simp only [decide_eq_true_eq]
      omega
    rw [hfeq]
    refine ⟨?_, Or.inr hall⟩
    intro hnil
    have hlen := congrArg List.length hnil
    rw [List.length_map] at hlen
    simp only [List.length_nil] at hlen
    omega

/-- Witness for the amended C8 at the three-character input: the
orchestrator's segmenter returns the whole trimmed text as one work unit,
and every body the bulk segmenter returns there (none) exceeds the
threshold. -/
theorem C8_segmenter_nonempty_witness :
    ((parseMultipleResumesFromText "abc".data ≠ [] ∧
        (parseMultipleResumesFromText "abc".data = [jsTrim "abc".data] ∨
          ∀ b ∈ parseMultipleResumesFromText "abc".data, 100 < b.length)) ∧
      (∀ b ∈ parseResumesFromText "abc".data, 100 < b.length)) :=
  C8_segmenter_nonempty "abc".data

/-- C9: at every point of a task's lifecycle inside `executeTask`, the
result field is set exactly when the status is completed and the error
field is set exactly when the status is failed, and the status only ever
moves forward along pending, processing, then completed or failed. -/
theorem C9_task_lifecycle (outcome : Except String Nat) :
    (∀ snap ∈ executeTaskTrace outcome,
        (snap.result.isSome ↔ snap.status = .completed) ∧
          (snap.error.isSome ↔ snap.status = .failed)) ∧
      List.Chain' (fun a b => statusRank a.status < statusRank b.status)
        (executeTaskTrace outcome) := by
  rcases outcome with e | v <;>
    simp [executeTaskTrace, statusRank, List.chain'_cons]

/-- Witness for C9: the completed snapshot of a successful run has its
result set and its error unset. -/
theorem C9_task_lifecycle_witness :
    ((⟨.completed, some 5, none⟩ : TaskSnapshot).result.isSome ↔
        (⟨.completed, some 5, none⟩ : TaskSnapshot).status = .completed) ∧
      ((⟨.completed, some 5, none⟩ : TaskSnapshot).error.isSome ↔
        (⟨.completed, some 5, none⟩ : TaskSnapshot).status = .failed) :=
  (C9_task_lifecycle (.ok 5)).1 ⟨.completed, some 5, none⟩ (by decide)

/-- C10: whenever `processAllResumes` returns, its summary counters are
consistent: processed equals total equals the number of input resumes,
successes plus failures equals processed, and the four recommendation
buckets together contain exactly the sorted successful results, with no
result in more than one bucket. -/
theorem C10_summary_counters (o : BulkOracle) (resumes : List String) (c : Nat)
    (hc : 0 < c) :
    let s := processAllResumes o resumes c
    s.processedResumes = s.totalResumes ∧
      s.totalResumes = resumes.length ∧
      s.successfulScreenings + s.failedScreenings = s.processedResumes ∧
      s.recommendations.strongHire.length + s.recommendations.hire.length +
          s.recommendations.consider.length + s.recommendations.noHire.length =
        s.successfulScreenings ∧
      (∀ r : BulkResumeResult,
        (r ∈ s.recommendations.strongHire ∨ r ∈ s.recommendations.hire ∨
            r ∈ s.recommendations.consider ∨ r ∈ s.recommendations.noHire) ↔
          r ∈ bulkSortedResults o resumes c) ∧
      (∀ r : BulkResumeResult,
        ¬ (r ∈ s.recommendations.strongHire ∧ r ∈ s.recommendations.hire) ∧
          ¬ (r ∈ s.recommendations.strongHire ∧ r ∈ s.recommendations.consider) ∧
          ¬ (r ∈ s.recommendations.strongHire ∧ r ∈ s.recommendations.noHire) ∧
          ¬ (r ∈ s.recommendations.hire ∧ r ∈ s.recommendations.consider) ∧
          ¬ (r ∈ s.recommendations.hire ∧ r ∈ s.recommendations.noHire) ∧
          ¬ (r ∈ s.recommendations.consider ∧ r ∈ s.recommendations.noHire)) := by
  intro s
  have hs1 : s.processedResumes = (bulkSettled o resumes c).length := rfl
  have hs2 : s.totalResumes = resumes.length := rfl
  have hsucc : s.successfulScreenings =
      ((bulkSettled o resumes c).filter Option.isSome).length := rfl
  have hfail : s.failedScreenings =
      ((bulkSettled o resumes c).filter fun r => !r.isSome).length := rfl
  have hstrong : s.recommendations.strongHire =
      (sortByScoreDesc ((bulkSettled o resumes c).filterMap id)).filter
        (fun r => r.screeningResult.recommendation == .STRONG_HIRE) := rfl
  have hhire : s.recommendations.hire =
      (sortByScoreDesc ((bulkSettled o resumes c).filterMap id)).filter
        (fun r => r.screeningResult.recommendation == .HIRE) := rfl
  have hcons : s.recommendations.consider =
      (sortByScoreDesc ((bulkSettled o resumes c).filterMap id)).filter
        (fun r => r.screeningResult.recommendation == .CONSIDER) := rfl
  have hno : s.recommendations.noHire =
      (sortByScoreDesc ((bulkSettled o resumes c).filterMap id)).filter
        (fun r => r.screeningResult.recommendation == .NO_HIRE) := rfl
  have hsorted : bulkSortedResults o resumes c =
      sortByScoreDesc ((bulkSettled o resumes c).filterMap id) := rfl
  refine ⟨?_, hs2, ?_, ?_, ?_, ?_⟩
  · rw [hs1, hs2, bulkSettled_eq o resumes c hc]
    simp
  · rw [hsucc, hfail, hs1]
    exact (List.length_eq_length_filter_add Option.isSome).symm
  · rw [hstrong, hhire, hcons, hno, hsucc]
    calc ((sortByScoreDesc ((bulkSettled o resumes c).filterMap id)).filter
            (fun r => r.screeningResult.recommendation == .STRONG_HIRE)).length +
          ((sortByScoreDesc ((bulkSettled o resumes c).filterMap id)).filter
            (fun r => r.screeningResult.recommendation == .HIRE)).length +
          ((sortByScoreDesc ((bulkSettled o resumes c).filterMap id)).filter
            (fun r => r.screeningResult.recommendation == .CONSIDER)).length +
          ((sortByScoreDesc ((bulkSettled o resumes c).filterMap id)).filter
            (fun r => r.screeningResult.recommendation == .NO_HIRE)).length
        = (sortByScoreDesc ((bulkSettled o resumes c).filterMap id)).length :=
          four_filter_partition _
      _ = ((bulkSettled o resumes c).filterMap id).length := sortByScoreDesc_length _
      _ = ((bulkSettled o resumes c).filter Option.isSome).length :=
          filterMap_id_length _
  · intro r
    rw [hstrong, hhire, hcons, hno, hsorted]
    rcases hrec : r.screeningResult.recommendation <;>
      simp [List.mem_filter, hrec, beq_iff_eq]
  · intro r
    simp only [hstrong, hhire, hcons, hno, List.mem_filter, beq_iff_eq]
    refine ⟨?_, ?_, ?_, ?_, ?_, ?_⟩ <;> rintro ⟨⟨_, h1⟩, ⟨_, h2⟩⟩ <;>
      rw [h1] at h2 <;> cases h2

/-- Witness for C10 at a concrete bulk run of two resumes with ceiling
three, one screening succeeding and one failing. -/
theorem C10_summary_counters_witness :
    let s := processAllResumes bulkOracleOne ["alpha", "beta"] 3
    s.processedResumes = s.totalResumes ∧
      s.totalResumes = (["alpha", "beta"] : List String).length ∧
      s.successfulScreenings + s.failedScreenings = s.processedResumes ∧
      s.recommendations.strongHire.length + s.recommendations.hire.length +
          s.recommendations.consider.length + s.recommendations.noHire.length =
        s.successfulScreenings ∧
      (∀ r : BulkResumeResult,
        (r ∈ s.recommendations.strongHire ∨ r ∈ s.recommendations.hire ∨
            r ∈ s.recommendations.consider ∨ r ∈ s.recommendations.noHire) ↔
          r ∈ bulkSortedResults bulkOracleOne ["alpha", "beta"] 3) ∧
      (∀ r : BulkResumeResult,
        ¬ (r ∈ s.recommendations.strongHire ∧ r ∈ s.recommendations.hire) ∧
          ¬ (r ∈ s.recommendations.strongHire ∧ r ∈ s.recommendations.consider) ∧
          ¬ (r ∈ s.recommendations.strongHire ∧ r ∈ s.recommendations.noHire) ∧
          ¬ (r ∈ s.recommendations.hire ∧ r ∈ s.recommendations.consider) ∧
          ¬ (r ∈ s.recommendations.hire ∧ r ∈ s.recommendations.noHire) ∧
          ¬ (r ∈ s.recommendations.consider ∧ r ∈ s.recommendations.noHire)) :=
  C10_summary_counters bulkOracleOne ["alpha", "beta"] 3 (by decide)
